import Mathlib

/-!
Verification of the training script `train.py` of the UNet3plus_pth
repository, against its natural-language specification.

The script is sequential orchestration: it splits a dataset, runs an
epoch/batch training loop, evaluates periodically, checkpoints on
improvement, and handles a keyboard interrupt at top level.  We embed
the script's own control flow and arithmetic shallowly; the external
framework (tensors, autograd, optimizers) is abstracted: batch losses
become given rational numbers, state dicts become abstract values, and
exceptions become an explicit error type.
-/

namespace UNet3Train

/-- Exception classes that appear in `train.py`: `OSError` is caught at the
checkpoint `os.mkdir` (line 126), `KeyboardInterrupt` at top level
(line 224), `SystemExit` inside the interrupt handler (line 229);
`ZeroDivisionError` can arise from `global_step % (n_train // 10)`
(line 104). `other` stands for any further class. -/
inductive PyExn where
  | oserror
  | keyboardInterrupt
  | systemExit
  | zeroDivisionError
  | other
  deriving DecidableEq, Repr

/-- `dir_checkpoint = 'ckpts/'`, line 24 of `train.py`. -/
def dir_checkpoint : String := "ckpts/"

/-! ## Dataset split (train_net, lines 28-32)

`n_val = int(len(dataset) * val_percent)`; `n_train = len(dataset) - n_val`.
Python's `int()` on a float truncates toward zero; we model the value
`len(dataset) * val_percent` as an exact rational. -/

/-- Python `int()` applied to a rational: truncation toward zero. -/
def pyTruncInt (q : ℚ) : ℤ :=
  q.num.tdiv q.den

/-- `n_val = int(len(dataset) * val_percent)`, line 29. -/
def n_val (N : ℕ) (val_percent : ℚ) : ℤ :=
  pyTruncInt ((N : ℚ) * val_percent)

/-- `n_train = len(dataset) - n_val`, line 30. -/
def n_train (N : ℕ) (val_percent : ℚ) : ℤ :=
  (N : ℤ) - n_val N val_percent

/-! ## Checkpoint serialization (load_pt / save_pt, lines 168-179)

A checkpoint is the dict `{'model': model.state_dict(),
'optimizer': optimizer.state_dict()}`; state dicts are abstract values
of a type `V`.  `torch.save`/`torch.load` round-trip the dict, so the
file content is the dict itself. -/

/-- `save_pt` builds the checkpoint dict (lines 174-179): keys `'model'`
and `'optimizer'`, in that order. -/
def save_pt {V : Type} (model_state optimizer_state : V) : List (String × V) :=
  [("model", model_state), ("optimizer", optimizer_state)]

/-- `load_pt` (lines 168-172): look up `checkpoint['model']` and
`checkpoint['optimizer']` and load them into the model and the
optimizer; a missing key is a (propagated) `KeyError`, modelled as
`none`. -/
def load_pt {V : Type} (checkpoint : List (String × V)) : Option (V × V) := do
  let m ← checkpoint.lookup "model"
  let o ← checkpoint.lookup "optimizer"
  pure (m, o)

/-! ## Model selection (`__main__`, lines 199-206) -/

/-- The model constructors reachable from `__main__`, with their
`n_channels` and `n_classes` arguments. -/
inductive Model where
  | unet (n_channels n_classes : ℕ)
  | unet2Plus (n_channels n_classes : ℕ)
  | unet3PlusDeepSupCGM (n_channels n_classes : ℕ)
  deriving DecidableEq, Repr

/-- Model selection from the `--unet_type` string (lines 199-206):
`'v2'` gives `UNet2Plus(3, 1)`, `'v3'` gives
`UNet3Plus_DeepSup_CGM(3, 1)`, anything else falls to the `else`
branch `UNet(n_channels=3, n_classes=1)`. -/
def selectModel (unet_type : String) : Model :=
  if unet_type = "v2" then Model.unet2Plus 3 1
  else if unet_type = "v3" then Model.unet3PlusDeepSupCGM 3 1
  else Model.unet 3 1

/-- Default of the `--unet_type` argument (get_args, line 150). -/
def default_unet_type : String := "v3"

/-! ## The per-batch loop (train_net, lines 74-101)

We abstract the framework: the loss of each batch (`loss.item()`) is a
given rational.  A batch updates `epoch_loss` (line 89, clamping the
addend at 1), increments `global_step` (line 101), and then runs
validation when `global_step % (n_train // 10) == 0` (line 104); in
Python a zero divisor raises `ZeroDivisionError`.  Validation itself is
external; we record the `global_step` values at which it runs. -/

/-- The in-epoch mutable state touched by one batch. -/
structure LoopState where
  global_step : ℕ
  epoch_loss : ℚ
  valSteps : List ℕ
  deriving DecidableEq, Repr

/-- One iteration of `for batch in train_loader` (lines 74-116), given the
batch's `loss.item()` value: `epoch_loss += item_loss if item_loss <= 1
else 1`; `global_step += 1`; then the validation-cadence check
`global_step % (n_train // 10) == 0`, which in Python raises
`ZeroDivisionError` when `n_train // 10 == 0`. -/
def batchStep (nTrain : ℕ) (s : LoopState) (item_loss : ℚ) :
    Except PyExn LoopState :=
  let epoch_loss := s.epoch_loss + (if item_loss ≤ 1 then item_loss else 1)
  let global_step := s.global_step + 1
  if nTrain / 10 = 0 then
    Except.error PyExn.zeroDivisionError
  else
    Except.ok
      { global_step := global_step
        epoch_loss := epoch_loss
        valSteps :=
          if global_step % (nTrain / 10) = 0
          then s.valSteps ++ [global_step]
          else s.valSteps }

/-- The whole `for batch in train_loader` loop of one epoch, over the
list of batch losses. -/
def runBatches (nTrain : ℕ) (losses : List ℚ) (s : LoopState) :
    Except PyExn LoopState :=
  losses.foldlM (batchStep nTrain) s

/-! ## Epoch end: scheduler step and checkpoint (lines 118-132) -/

/-- The training-run state that survives across epochs. -/
structure NetState where
  global_step : ℕ
  best_loss : ℚ
  saved : List (ℕ × ℚ)
  valSteps : List ℕ
  schedSteps : ℕ
  deriving DecidableEq, Repr

/-- Initial state of `train_net`: `global_step = 0` (line 40),
`best_loss = 10000` (line 66), no checkpoints saved, no validation run,
no scheduler step taken. -/
def initState : NetState :=
  { global_step := 0, best_loss := 10000, saved := [], valSteps := [], schedSteps := 0 }

/-- The best-loss comparison and save (lines 129-132): when
`epoch_loss < best_loss`, `save_pt` writes
`epoch{epoch+1}_{epoch_loss}.pt` (recorded as the pair
`(epoch + 1, epoch_loss)`) and `best_loss = epoch_loss`; otherwise
nothing changes. -/
def doCheckpoint (epoch : ℕ) (epoch_loss : ℚ) (s : NetState) : NetState :=
  if epoch_loss < s.best_loss then
    { s with best_loss := epoch_loss, saved := s.saved ++ [(epoch + 1, epoch_loss)] }
  else s

/-- End of one epoch (lines 118-132): `scheduler.step()` runs
unconditionally (line 119); then, if `save_cp`, `os.mkdir` is attempted
with `except OSError: pass` (lines 123-127) — its outcome is the
`mkdir` argument, `none` for success — and the best-loss
comparison and save run (lines 129-132).  An exception from `os.mkdir`
other than `OSError` is not caught and propagates. -/
def epochEnd (save_cp : Bool) (mkdir : Option PyExn) (epoch : ℕ)
    (epoch_loss : ℚ) (s : NetState) : Except PyExn NetState :=
  let s1 := { s with schedSteps := s.schedSteps + 1 }
  if save_cp then
    match mkdir with
    | none => Except.ok (doCheckpoint epoch epoch_loss s1)
    | some PyExn.oserror => Except.ok (doCheckpoint epoch epoch_loss s1)
    | some e => Except.error e
  else
    Except.ok s1

/-- One full epoch (lines 67-132): run the batch loop with
`epoch_loss = 0` (line 71), then the epoch end. -/
def runEpoch (nTrain : ℕ) (save_cp : Bool) (mkdir : Option PyExn)
    (epoch : ℕ) (losses : List ℚ) (s : NetState) : Except PyExn NetState := do
  let ls ← runBatches nTrain losses ⟨s.global_step, 0, s.valSteps⟩
  epochEnd save_cp mkdir epoch ls.epoch_loss
    { s with global_step := ls.global_step, valSteps := ls.valSteps }

/-- The `for epoch in range(epochs)` loop from epoch index `e` on, given
each epoch's batch losses and each epoch's `os.mkdir` outcome. -/
def runEpochsFrom (nTrain : ℕ) (save_cp : Bool) (mkdir : ℕ → Option PyExn) :
    ℕ → List (List ℚ) → NetState → Except PyExn NetState
  | _, [], s => Except.ok s
  | e, losses :: rest, s => do
      let s1 ← runEpoch nTrain save_cp (mkdir e) e losses s
      runEpochsFrom nTrain save_cp mkdir (e + 1) rest s1

/-- The whole training loop of `train_net` (lines 40-132), from the
initial state. -/
def runTrain (nTrain : ℕ) (save_cp : Bool) (mkdir : ℕ → Option PyExn)
    (epochLosses : List (List ℚ)) : Except PyExn NetState :=
  runEpochsFrom nTrain save_cp mkdir 0 epochLosses initState

/-! ## Top-level exception handling (`__main__`, lines 221-230) -/

/-- Outcome of the `try: train_net(...) except KeyboardInterrupt:` block. -/
inductive MainResult (V : Type) where
  | completed
  | interruptSaved (file : String) (checkpoint : List (String × V))
  | uncaught (e : PyExn)
  deriving DecidableEq, Repr

/-- The `try`/`except KeyboardInterrupt` at lines 221-230: a normal
return completes; a `KeyboardInterrupt` runs
`save_pt(model, optimizer, 'INTERRUPTED.pt')` and exits; any other
exception propagates uncaught. -/
def mainTry {V : Type} (outcome : Except PyExn Unit)
    (model_state optimizer_state : V) : MainResult V :=
  match outcome with
  | Except.ok _ => MainResult.completed
  | Except.error PyExn.keyboardInterrupt =>
      MainResult.interruptSaved "INTERRUPTED.pt" (save_pt model_state optimizer_state)
  | Except.error e => MainResult.uncaught e

/-! ## Learning-rate lambda (train_net, lines 54-58)

`lf(x) = (((1 + cos(x * pi / epochs)) / 2) ** 1.0) * 0.95 + 0.05`.
The script computes it in floating point; we state its idealized
real-valued properties. -/

/-- The cosine learning-rate factor `lf` of lines 55-56, over ℝ. -/
noncomputable def lf (epochs : ℕ) (x : ℝ) : ℝ :=
  (((1 + Real.cos (x * Real.pi / (epochs : ℝ))) / 2) ^ (1 : ℝ)) * 0.95 + 0.05

/-! ## Helper lemmas -/

/-- Truncation toward zero agrees with the floor on nonnegative rationals. -/
lemma pyTruncInt_eq_floor {q : ℚ} (h : 0 ≤ q) : pyTruncInt q = ⌊q⌋ := by
  rw [Rat.floor_def, pyTruncInt]
  exact Int.tdiv_eq_ediv (Rat.num_nonneg.mpr h) (Int.ofNat_nonneg _)

/-- Inversion for a successful `Except` bind. -/
lemma bind_eq_ok {α β : Type} {x : Except PyExn α} {f : α → Except PyExn β} {b : β}
    (h : (x >>= f) = Except.ok b) : ∃ a, x = Except.ok a ∧ f a = Except.ok b := by
  cases x with
  | error e => simp [Bind.bind, Except.bind] at h
  | ok a => exact ⟨a, rfl, h⟩

/-- Binding a success just applies the continuation. -/
lemma ok_bind {α β : Type} (a : α) (f : α → Except PyExn β) :
    (Except.ok a >>= f) = f a := rfl

/-- The validation steps recorded by `n` batches that start at global
step `gs`, with cadence divisor `q`: the steps in `(gs, gs+n]` whose
value is divisible by `q`, in order. -/
def cadence (q gs : ℕ) : ℕ → List ℕ
  | 0 => []
  | n + 1 => (if (gs + 1) % q = 0 then [gs + 1] else []) ++ cadence q (gs + 1) n

/-- Closed form of a successful batch loop: it always succeeds when the
cadence divisor is nonzero, advances `global_step` by the number of
batches, adds the clamped losses to `epoch_loss`, and appends the
cadence steps to `valSteps`. -/
lemma runBatches_eq (nt : ℕ) (hnt : nt / 10 ≠ 0) :
    ∀ (losses : List ℚ) (gs : ℕ) (el : ℚ) (vs : List ℕ),
      runBatches nt losses ⟨gs, el, vs⟩ =
        Except.ok
          { global_step := gs + losses.length
            epoch_loss := el + (losses.map fun l => min l 1).sum
            valSteps := vs ++ cadence (nt / 10) gs losses.length } := by
  intro losses
  induction losses with
  | nil =>
      intro gs el vs
      show Except.ok _ = _
      simp [cadence]
  | cons l rest ih =>
      intro gs el vs
      have hstep : batchStep nt ⟨gs, el, vs⟩ l =
          Except.ok ⟨gs + 1, el + (if l ≤ 1 then l else 1),
            if (gs + 1) % (nt / 10) = 0 then vs ++ [gs + 1] else vs⟩ := by
        simp [batchStep, hnt]
      show (batchStep nt ⟨gs, el, vs⟩ l >>=
        fun s => List.foldlM (batchStep nt) s rest) = _
      rw [hstep, ok_bind]
      show runBatches nt rest _ = _
      rw [ih]
      apply congrArg Except.ok
      have hmin : (if l ≤ 1 then l else (1 : ℚ)) = min l 1 := (min_def l 1).symm
      by_cases hp : (gs + 1) % (nt / 10) = 0 <;>
        simp [LoopState.mk.injEq, cadence, hp, hmin, List.map_cons, List.sum_cons] <;>
        constructor <;> first | omega | ring

/-- Membership in the cadence list: exactly the multiples of `q` in the
stepped range. -/
lemma mem_cadence (q : ℕ) :
    ∀ (n gs g : ℕ), g ∈ cadence q gs n ↔ (gs < g ∧ g ≤ gs + n ∧ g % q = 0) := by
  intro n
  induction n with
  | zero => intro gs g; simp [cadence]; omega
  | succ n ih =>
      intro gs g
      by_cases hp : (gs + 1) % q = 0
      · simp [cadence, hp, ih]
        constructor
        · rintro (rfl | ⟨h1, h2, h3⟩)
          · exact ⟨by omega, by omega, hp⟩
          · exact ⟨by omega, by omega, h3⟩
        · rintro ⟨h1, h2, h3⟩
          by_cases hg : g = gs + 1
          · exact Or.inl hg
          · exact Or.inr ⟨by omega, by omega, h3⟩
      · simp [cadence, hp, ih]
        constructor
        · rintro ⟨h1, h2, h3⟩
          exact ⟨by omega, by omega, h3⟩
        · rintro ⟨h1, h2, h3⟩
          have hg : g ≠ gs + 1 := by
            intro he; exact hp (he ▸ h3)
          exact ⟨by omega, by omega, h3⟩

/-- A successful batch loop accumulates exactly the sum of the clamped
batch losses. -/
lemma runBatches_ok_epoch_loss (nt : ℕ) :
    ∀ (losses : List ℚ) (s s' : LoopState),
      runBatches nt losses s = Except.ok s' →
      s'.epoch_loss = s.epoch_loss + (losses.map fun l => min l 1).sum := by
  intro losses
  induction losses with
  | nil =>
      intro s s' h
      have hs : s = s' :=
        Except.ok.inj (show (Except.ok s : Except PyExn LoopState) = Except.ok s' from h)
      subst hs; simp
  | cons l rest ih =>
      intro s s' h
      by_cases hnt : nt / 10 = 0
      · have hb : batchStep nt s l = Except.error PyExn.zeroDivisionError := by
          simp [batchStep, hnt]
        have herr : runBatches nt (l :: rest) s = Except.error PyExn.zeroDivisionError := by
          show (batchStep nt s l >>= fun t => List.foldlM (batchStep nt) t rest) = _
          rw [hb]; rfl
        rw [herr] at h; exact absurd h (by simp)
      · have hb : batchStep nt s l =
            Except.ok ⟨s.global_step + 1, s.epoch_loss + (if l ≤ 1 then l else 1),
              if (s.global_step + 1) % (nt / 10) = 0
              then s.valSteps ++ [s.global_step + 1] else s.valSteps⟩ := by
          simp [batchStep, hnt]
        have h2 : runBatches nt rest
            ⟨s.global_step + 1, s.epoch_loss + (if l ≤ 1 then l else 1),
              if (s.global_step + 1) % (nt / 10) = 0
              then s.valSteps ++ [s.global_step + 1] else s.valSteps⟩ = Except.ok s' := by
          have hc : runBatches nt (l :: rest) s =
              (batchStep nt s l >>= fun t => List.foldlM (batchStep nt) t rest) := rfl
          rw [hc, hb, ok_bind] at h
          exact h
        have h3 := ih _ _ h2
        simp only [h3]
        have hmin : (if l ≤ 1 then l else (1 : ℚ)) = min l 1 := (min_def l 1).symm
        simp [hmin, List.map_cons, List.sum_cons]
        ring

/-- Each clamped batch loss is at most 1, so their sum is at most the
number of batches. -/
lemma clamped_sum_le (losses : List ℚ) :
    (losses.map fun l => min l 1).sum ≤ (losses.length : ℚ) := by
  have h := List.sum_le_card_nsmul (losses.map fun l => min l 1) 1 ?_
  · simpa [List.length_map, nsmul_eq_mul] using h
  · intro x hx
    obtain ⟨l, _, rfl⟩ := List.mem_map.mp hx
    exact min_le_right l 1

/-! ## Claim theorems -/

/-- C3: for every dataset size `N` and validation fraction
`val_percent`, the validation size is `⌊N * val_percent⌋`, the training
size is `N` minus that value, and the two sizes partition the dataset:
`n_train + n_val = N`. -/
theorem dataset_split (N : ℕ) (val_percent : ℚ) (h : 0 ≤ val_percent) :
    n_val N val_percent = ⌊(N : ℚ) * val_percent⌋ ∧
    n_train N val_percent = (N : ℤ) - ⌊(N : ℚ) * val_percent⌋ ∧
    n_train N val_percent + n_val N val_percent = (N : ℤ) := by
  have hq : (0 : ℚ) ≤ (N : ℚ) * val_percent := mul_nonneg (Nat.cast_nonneg N) h
  have h1 : n_val N val_percent = ⌊(N : ℚ) * val_percent⌋ := pyTruncInt_eq_floor hq
  exact ⟨h1, by rw [n_train, h1], by rw [n_train]; ring⟩

/-- Witness for C3 at `N = 100`, `val_percent = 1/10`. -/
theorem dataset_split_witness :
    (0 : ℚ) ≤ 1 / 10 ∧
    (n_val 100 (1 / 10) = ⌊(100 : ℚ) * (1 / 10)⌋ ∧
     n_train 100 (1 / 10) = (100 : ℤ) - ⌊(100 : ℚ) * (1 / 10)⌋ ∧
     n_train 100 (1 / 10) + n_val 100 (1 / 10) = (100 : ℤ)) :=
  ⟨by norm_num, dataset_split 100 (1 / 10) (by norm_num)⟩

/-- C6: the checkpoint written by `save_pt` holds exactly the model
state under key `'model'` and the optimizer state under key
`'optimizer'`, and `load_pt` on such a checkpoint restores exactly the
two states that were saved. -/
theorem checkpoint_roundtrip {V : Type} (model_state optimizer_state : V) :
    (save_pt model_state optimizer_state).map Prod.fst = ["model", "optimizer"] ∧
    load_pt (save_pt model_state optimizer_state) = some (model_state, optimizer_state) := by
  exact ⟨rfl, rfl⟩

/-- C10: every `--unet_type` value other than `'v2'` and `'v3'`
(including the documented `'v1'`) constructs the plain `UNet` with
`n_channels = 3`, `n_classes = 1`; `'v2'` gives `UNet2Plus` and `'v3'`
gives `UNet3Plus_DeepSup_CGM`. -/
theorem model_selection (s : String) (h2 : s ≠ "v2") (h3 : s ≠ "v3") :
    selectModel s = Model.unet 3 1 ∧
    selectModel "v1" = Model.unet 3 1 ∧
    selectModel "v2" = Model.unet2Plus 3 1 ∧
    selectModel "v3" = Model.unet3PlusDeepSupCGM 3 1 := by
  refine ⟨?_, rfl, rfl, rfl⟩
  simp [selectModel, h2, h3]

/-- Witness for C10 at the string `'v1'`. -/
theorem model_selection_witness :
    ("v1" : String) ≠ "v2" ∧ ("v1" : String) ≠ "v3" ∧
    selectModel "v1" = Model.unet 3 1 :=
  ⟨by decide, by decide, (model_selection "v1" (by decide) (by decide)).1⟩

/-- C7: with checkpoint saving enabled, an `OSError` from `os.mkdir` is
swallowed: the epoch end behaves exactly as on a successful `mkdir`,
and in particular it does not abort — the scheduler step, the best-loss
comparison, and the conditional save still run. -/
theorem mkdir_oserror_swallowed (epoch : ℕ) (epoch_loss : ℚ) (s : NetState) :
    epochEnd true (some PyExn.oserror) epoch epoch_loss s =
      epochEnd true none epoch epoch_loss s ∧
    epochEnd true (some PyExn.oserror) epoch epoch_loss s =
      Except.ok (doCheckpoint epoch epoch_loss { s with schedSteps := s.schedSteps + 1 }) :=
  ⟨rfl, rfl⟩

/-- C1: with checkpoint saving enabled, the epoch end saves a
checkpoint if and only if the epoch's accumulated loss is strictly
below the best loss so far — in which case the best loss becomes the
epoch loss — and the best loss starts at 10000. -/
theorem checkpoint_on_improvement (epoch : ℕ) (epoch_loss : ℚ) (s : NetState) :
    initState.best_loss = 10000 ∧
    ∃ s1, epochEnd true none epoch epoch_loss s = Except.ok s1 ∧
      ((epoch_loss < s.best_loss ∧
          s1.saved = s.saved ++ [(epoch + 1, epoch_loss)] ∧
          s1.best_loss = epoch_loss) ∨
       (¬epoch_loss < s.best_loss ∧ s1.saved = s.saved ∧ s1.best_loss = s.best_loss)) := by
  refine ⟨rfl, doCheckpoint epoch epoch_loss { s with schedSteps := s.schedSteps + 1 },
    rfl, ?_⟩
  by_cases h : epoch_loss < s.best_loss
  · exact Or.inl ⟨h, by simp [doCheckpoint, h], by simp [doCheckpoint, h]⟩
  · exact Or.inr ⟨h, by simp [doCheckpoint, h], by simp [doCheckpoint, h]⟩

/-- C2 is refuted as stated: `KeyboardInterrupt` is not the only
exception type the script gives special handling to — an `OSError`
raised by `os.mkdir` in the training loop is caught and swallowed
(training continues and the checkpoint logic runs), while other
exceptions there propagate. -/
theorem interrupt_only_handling_counterexample :
    epochEnd true (some PyExn.oserror) 0 0 initState =
      Except.ok (doCheckpoint 0 0 { initState with schedSteps := 1 }) ∧
    epochEnd true (some PyExn.other) 0 0 initState = Except.error PyExn.other ∧
    PyExn.oserror ≠ PyExn.keyboardInterrupt :=
  ⟨rfl, rfl, by decide⟩

/-- C2 (amended): on a `KeyboardInterrupt` during training, the
top-level handler saves a checkpoint with the model state and the
optimizer state to `'INTERRUPTED.pt'` before exiting, and
`KeyboardInterrupt` is the only exception type handled at top level
(any other propagates uncaught); inside the training loop, however,
`OSError` from checkpoint-directory creation is also handled, by being
swallowed. -/
theorem interrupt_saves_checkpoint {V : Type} (m o : V) (e : PyExn)
    (he : e ≠ PyExn.keyboardInterrupt) :
    mainTry (Except.error PyExn.keyboardInterrupt) m o =
      MainResult.interruptSaved "INTERRUPTED.pt" [("model", m), ("optimizer", o)] ∧
    mainTry (Except.error e) m o = MainResult.uncaught e ∧
    mainTry (Except.ok ()) m o = MainResult.completed ∧
    (∀ s : NetState, ∀ epoch : ℕ, ∀ epoch_loss : ℚ,
      epochEnd true (some PyExn.oserror) epoch epoch_loss s =
        epochEnd true none epoch epoch_loss s) := by
  refine ⟨rfl, ?_, rfl, fun s epoch epoch_loss => rfl⟩
  cases e with
  | keyboardInterrupt => exact absurd rfl he
  | oserror => rfl
  | systemExit => rfl
  | zeroDivisionError => rfl
  | other => rfl

/-- Witness for the amended C2, at `e = OSError` and natural-number
state dicts. -/
theorem interrupt_saves_checkpoint_witness :
    PyExn.oserror ≠ PyExn.keyboardInterrupt ∧
    (mainTry (Except.error PyExn.keyboardInterrupt) (1 : ℕ) 2 =
      MainResult.interruptSaved "INTERRUPTED.pt" [("model", 1), ("optimizer", 2)] ∧
    mainTry (Except.error PyExn.oserror) (1 : ℕ) 2 = MainResult.uncaught PyExn.oserror ∧
    mainTry (Except.ok ()) (1 : ℕ) 2 = MainResult.completed ∧
    (∀ s : NetState, ∀ epoch : ℕ, ∀ epoch_loss : ℚ,
      epochEnd true (some PyExn.oserror) epoch epoch_loss s =
        epochEnd true none epoch epoch_loss s)) :=
  ⟨by decide, interrupt_saves_checkpoint 1 2 PyExn.oserror (by decide)⟩

/-- C4: starting from any global step `gs` (steps count batches across
all epochs; each batch increments the step once), the batch loop
advances the step once per batch and runs validation after a batch
exactly when the resulting cumulative step count is divisible by
`n_train / 10`. -/
theorem validation_cadence (nt : ℕ) (h : 10 ≤ nt) (losses : List ℚ)
    (gs : ℕ) (el : ℚ) :
    ∃ s', runBatches nt losses ⟨gs, el, []⟩ = Except.ok s' ∧
      s'.global_step = gs + losses.length ∧
      ∀ g, g ∈ s'.valSteps ↔ (gs < g ∧ g ≤ gs + losses.length ∧ (nt / 10) ∣ g) := by
  have hnt : nt / 10 ≠ 0 := by omega
  refine ⟨_, runBatches_eq nt hnt losses gs el [], rfl, fun g => ?_⟩
  show g ∈ [] ++ cadence (nt / 10) gs losses.length ↔ _
  rw [List.nil_append, mem_cadence]
  rw [Nat.dvd_iff_mod_eq_zero]

/-- Witness for C4 with 25 training images (divisor 2) and three
batches starting at global step 0. -/
theorem validation_cadence_witness :
    (10 : ℕ) ≤ 25 ∧
    (∃ s', runBatches 25 [0, 0, 0] ⟨0, 0, []⟩ = Except.ok s' ∧
      s'.global_step = 0 + ([0, 0, 0] : List ℚ).length ∧
      ∀ g, g ∈ s'.valSteps ↔
        (0 < g ∧ g ≤ 0 + ([0, 0, 0] : List ℚ).length ∧ (25 / 10) ∣ g)) :=
  ⟨by decide, validation_cadence 25 (by decide) [0, 0, 0] 0 0⟩

/-- C8: with `n_train ≥ 10` the cadence divisor `n_train / 10` is
nonzero and the batch loop always succeeds; with `n_train < 10` the
first batch raises `ZeroDivisionError`. -/
theorem cadence_divisor (nt : ℕ) (losses : List ℚ) (l : ℚ) (s : LoopState) :
    (10 ≤ nt → ∃ s', runBatches nt losses s = Except.ok s') ∧
    (nt < 10 → runBatches nt (l :: losses) s = Except.error PyExn.zeroDivisionError) := by
  constructor
  · intro h
    obtain ⟨gs, el, vs⟩ := s
    exact ⟨_, runBatches_eq nt (by omega) losses gs el vs⟩
  · intro h
    have h0 : nt / 10 = 0 := by omega
    have hb : batchStep nt s l = Except.error PyExn.zeroDivisionError := by
      simp [batchStep, h0]
    show (batchStep nt s l >>= fun t => List.foldlM (batchStep nt) t losses) = _
    rw [hb]; rfl

/-- Witness for C8 at `n_train = 20` (success) and `n_train = 5`
(first-batch division by zero). -/
theorem cadence_divisor_witness :
    ((10 : ℕ) ≤ 20 ∧ (5 : ℕ) < 10) ∧
    (∃ s', runBatches 20 [1] ⟨0, 0, []⟩ = Except.ok s') ∧
    runBatches 5 [1] ⟨0, 0, []⟩ = Except.error PyExn.zeroDivisionError :=
  ⟨⟨by decide, by decide⟩,
   (cadence_divisor 20 [1] 1 ⟨0, 0, []⟩).1 (by decide),
   (cadence_divisor 5 [] 1 ⟨0, 0, []⟩).2 (by decide)⟩

/-- C9: a successful epoch accumulates exactly the clamped sum
`Σ min(item_loss, 1)` — so after `k` batches the epoch loss is at most
`k` — and the epoch end (hence the best-loss comparison) receives this
clamped sum, not the raw sum. -/
theorem epoch_loss_clamped (nt : ℕ) (losses : List ℚ) (gs : ℕ) (vs : List ℕ)
    (s' : LoopState) (h : runBatches nt losses ⟨gs, 0, vs⟩ = Except.ok s') :
    s'.epoch_loss = (losses.map fun l => min l 1).sum ∧
    s'.epoch_loss ≤ (losses.length : ℚ) ∧
    ∀ (save_cp : Bool) (mkdir : Option PyExn) (epoch : ℕ) (s : NetState),
      s.global_step = gs → s.valSteps = vs →
      runEpoch nt save_cp mkdir epoch losses s =
        epochEnd save_cp mkdir epoch ((losses.map fun l => min l 1).sum)
          { s with global_step := s'.global_step, valSteps := s'.valSteps } := by
  have h1 := runBatches_ok_epoch_loss nt losses ⟨gs, 0, vs⟩ s' h
  simp only at h1
  rw [zero_add] at h1
  refine ⟨h1, h1 ▸ clamped_sum_le losses, ?_⟩
  intro save_cp mkdir epoch s hgs hvs
  simp only [runEpoch]
  rw [hgs, hvs, h, ok_bind, h1]

/-- Witness for C9 on the two batch losses 0 and 3: the second is
clamped to 1, the epoch loss reaches 1 ≤ 2. -/
theorem epoch_loss_clamped_witness :
    runBatches 20 [0, 3] ⟨0, 0, []⟩ = Except.ok ⟨2, 1, [2]⟩ ∧
    ((⟨2, 1, [2]⟩ : LoopState).epoch_loss =
        (([0, 3] : List ℚ).map fun l => min l 1).sum ∧
     (⟨2, 1, [2]⟩ : LoopState).epoch_loss ≤ (([0, 3] : List ℚ).length : ℚ) ∧
     ∀ (save_cp : Bool) (mkdir : Option PyExn) (epoch : ℕ) (s : NetState),
       s.global_step = 0 → s.valSteps = [] →
       runEpoch 20 save_cp mkdir epoch [0, 3] s =
         epochEnd save_cp mkdir epoch ((([0, 3] : List ℚ).map fun l => min l 1).sum)
           { s with global_step := (⟨2, 1, [2]⟩ : LoopState).global_step,
                    valSteps := (⟨2, 1, [2]⟩ : LoopState).valSteps }) :=
  ⟨by norm_num [runBatches, batchStep, List.foldlM, ok_bind],
   epoch_loss_clamped 20 [0, 3] 0 [] ⟨2, 1, [2]⟩
     (by norm_num [runBatches, batchStep, List.foldlM, ok_bind])⟩

/-- The conditional save never touches the scheduler-step count. -/
lemma doCheckpoint_schedSteps (epoch : ℕ) (el : ℚ) (s : NetState) :
    (doCheckpoint epoch el s).schedSteps = s.schedSteps := by
  simp only [doCheckpoint]
  split <;> rfl

/-- A successful epoch end performs exactly one scheduler step. -/
lemma epochEnd_schedSteps {save_cp : Bool} {mkdir : Option PyExn} {e : ℕ} {el : ℚ}
    {s s1 : NetState} (h : epochEnd save_cp mkdir e el s = Except.ok s1) :
    s1.schedSteps = s.schedSteps + 1 := by
  cases save_cp with
  | false =>
      rw [← Except.ok.inj h]
  | true =>
      cases mkdir with
      | none =>
          rw [← Except.ok.inj h, doCheckpoint_schedSteps]
      | some e' =>
          cases e' with
          | oserror => rw [← Except.ok.inj h, doCheckpoint_schedSteps]
          | keyboardInterrupt => simp [epochEnd] at h
          | systemExit => simp [epochEnd] at h
          | zeroDivisionError => simp [epochEnd] at h
          | other => simp [epochEnd] at h

/-- A successful epoch performs exactly one scheduler step, taken after
the whole batch loop. -/
lemma runEpoch_schedSteps {nt : ℕ} {save_cp : Bool} {mkdir : Option PyExn} {e : ℕ}
    {losses : List ℚ} {s s1 : NetState}
    (h : runEpoch nt save_cp mkdir e losses s = Except.ok s1) :
    s1.schedSteps = s.schedSteps + 1 := by
  simp only [runEpoch] at h
  obtain ⟨ls, hls, hend⟩ := bind_eq_ok h
  have h1 := epochEnd_schedSteps hend
  exact h1

/-- A successful run of consecutive epochs performs one scheduler step
per epoch. -/
lemma runEpochsFrom_schedSteps (nt : ℕ) (save_cp : Bool) (mkdir : ℕ → Option PyExn) :
    ∀ (epochLosses : List (List ℚ)) (e : ℕ) (s s1 : NetState),
      runEpochsFrom nt save_cp mkdir e epochLosses s = Except.ok s1 →
      s1.schedSteps = s.schedSteps + epochLosses.length := by
  intro epochLosses
  induction epochLosses with
  | nil =>
      intro e s s1 h
      have hs := Except.ok.inj h
      subst hs; simp
  | cons a rest ih =>
      intro e s s1 h
      simp only [runEpochsFrom] at h
      obtain ⟨t, ht, hrest⟩ := bind_eq_ok h
      have h1 := runEpoch_schedSteps ht
      have h2 := ih (e + 1) t s1 hrest
      simp only [List.length_cons]
      omega

/-- C5: the learning-rate factor
`lf x = ((1 + cos(x·π/epochs))/2) · 0.95 + 0.05` satisfies `lf 0 = 1`
and `lf epochs = 0.05`, is monotonically non-increasing on
`[0, epochs]`, and over any complete training run the scheduler is
stepped exactly once per epoch (after the epoch's batches). -/
theorem lr_schedule (E : ℕ) (hE : 0 < E) :
    lf E 0 = 1 ∧
    lf E E = 0.05 ∧
    (∀ x y : ℝ, 0 ≤ x → x ≤ y → y ≤ (E : ℝ) → lf E y ≤ lf E x) ∧
    (∀ (nt : ℕ) (save_cp : Bool) (mkdir : ℕ → Option PyExn)
       (epochLosses : List (List ℚ)) (s1 : NetState),
       runTrain nt save_cp mkdir epochLosses = Except.ok s1 →
       s1.schedSteps = epochLosses.length) := by
  have hEpos : (0 : ℝ) < (E : ℝ) := by exact_mod_cast hE
  refine ⟨?_, ?_, ?_, ?_⟩
  · norm_num [lf, Real.cos_zero, Real.one_rpow]
  · have harg : (E : ℝ) * Real.pi / (E : ℝ) = Real.pi := by
      field_simp
    rw [lf, harg, Real.cos_pi]
    norm_num [Real.rpow_one]
  · intro x y hx hxy hyE
    rw [lf, lf, Real.rpow_one, Real.rpow_one]
    have h1 : (0 : ℝ) ≤ x * Real.pi / (E : ℝ) := by positivity
    have h2 : y * Real.pi / (E : ℝ) ≤ Real.pi := by
      rw [div_le_iff₀ hEpos]
      calc y * Real.pi ≤ (E : ℝ) * Real.pi :=
            mul_le_mul_of_nonneg_right hyE Real.pi_pos.le
        _ = Real.pi * (E : ℝ) := mul_comm _ _
    have h3 : x * Real.pi / (E : ℝ) ≤ y * Real.pi / (E : ℝ) :=
      (div_le_div_iff_of_pos_right hEpos).mpr (mul_le_mul_of_nonneg_right hxy Real.pi_pos.le)
    have hcos := Real.cos_le_cos_of_nonneg_of_le_pi h1 h2 h3
    linarith
  · intro nt save_cp mkdir epochLosses s1 h
    rw [runTrain] at h
    have := runEpochsFrom_schedSteps nt save_cp mkdir epochLosses 0 initState s1 h
    simpa [initState] using this

/-- Witness for C5 at `epochs = 5`. -/
theorem lr_schedule_witness :
    (0 : ℕ) < 5 ∧
    (lf 5 0 = 1 ∧
     lf 5 ((5 : ℕ) : ℝ) = 0.05 ∧
     (∀ x y : ℝ, 0 ≤ x → x ≤ y → y ≤ ((5 : ℕ) : ℝ) → lf 5 y ≤ lf 5 x) ∧
     (∀ (nt : ℕ) (save_cp : Bool) (mkdir : ℕ → Option PyExn)
        (epochLosses : List (List ℚ)) (s1 : NetState),
        runTrain nt save_cp mkdir epochLosses = Except.ok s1 →
        s1.schedSteps = epochLosses.length)) :=
  ⟨by norm_num, lr_schedule 5 (by norm_num)⟩

end UNet3Train
